import Mathlib

/-!
Verification of the redactr detection/redaction core against its design
specification.  The definitions below are shallow embeddings of the
TypeScript sources:

  src/lib/detection/sota/ralph.ts       (validateRalphResponse)
  src/lib/detection/sota/openrouter.ts  (callOpenRouter, mapStatusToErrorType)
  src/lib/detection/sota/index.ts       (startRalphLisaLoop)
  src/lib/stores/sota.ts                (sotaStore operations)
  src/lib/stores/detection.ts           (detectionStore operations)
  src/lib/detection/manager.ts          (startDetection, worker message handler,
                                         runTextDetection, face/text mapping)
  src/lib/detection/mediapipe-face.ts   (detectFaces result mapping)
  src/lib/detection/worker.ts           (runDetection message emission,
                                         detectLicensePlates, detectDocuments,
                                         cancel handling)

JavaScript numbers are modelled as rationals, with NaN represented
explicitly where the code can receive it; machine-level floating point
rounding is not relevant to any statement proved here (all constants and
counterexamples are small integers).
-/

namespace Redactr

/-! ## JavaScript numeric coercions

The planner and evaluator responses arrive as untyped JSON, so a numeric
field can be a finite number, NaN, or absent.  `Number(v)` coerces absent
and non-numeric values to NaN, which we fold into the `nan` constructor.
`JNum.orDefault` models the idiom `Number(v) || d`, in which both NaN and
0 are falsy and fall back to the default. -/

inductive JNum where
  | num (q : ℚ)
  | nan
  deriving DecidableEq, Repr

def JNum.orDefault : JNum → ℚ → ℚ
  | .num q, d => if q = 0 then d else q
  | .nan, d => d

/-- Model of `Math.round`: rounds half toward positive infinity. -/
def jsRound (q : ℚ) : ℤ := ⌊q + 1 / 2⌋

theorem jsRound_intCast (n : ℤ) : jsRound (n : ℚ) = n := by
  unfold jsRound
  rw [Int.floor_eq_iff]
  refine ⟨by linarith, by linarith⟩

theorem jsRound_orDefault_zero (n : ℤ) :
    jsRound ((JNum.num (n : ℚ)).orDefault 0) = n := by
  by_cases h : n = 0
  · have hval : (JNum.num (n : ℚ)).orDefault 0 = ((0 : ℤ) : ℚ) := by
      simp [JNum.orDefault, h]
    rw [hval, jsRound_intCast, h]
  · have hq : (n : ℚ) ≠ 0 := Int.cast_ne_zero.mpr h
    have hval : (JNum.num (n : ℚ)).orDefault 0 = (n : ℚ) := by
      simp [JNum.orDefault, hq]
    rw [hval, jsRound_intCast]

theorem jsRound_orDefault_fifty (n : ℤ) :
    jsRound ((JNum.num (n : ℚ)).orDefault 50) = if n = 0 then 50 else n := by
  by_cases h : n = 0
  · have hval : (JNum.num (n : ℚ)).orDefault 50 = ((50 : ℤ) : ℚ) := by
      simp [JNum.orDefault, h]
    rw [hval, jsRound_intCast, if_pos h]
  · have hq : (n : ℚ) ≠ 0 := Int.cast_ne_zero.mpr h
    have hval : (JNum.num (n : ℚ)).orDefault 50 = (n : ℚ) := by
      simp [JNum.orDefault, hq]
    rw [hval, jsRound_intCast, if_neg h]

theorem jsRound_orDefault_seventy (n : ℤ) :
    jsRound ((JNum.num (n : ℚ)).orDefault 70) = if n = 0 then 70 else n := by
  by_cases h : n = 0
  · have hval : (JNum.num (n : ℚ)).orDefault 70 = ((70 : ℤ) : ℚ) := by
      simp [JNum.orDefault, h]
    rw [hval, jsRound_intCast, if_pos h]
  · have hq : (n : ℚ) ≠ 0 := Int.cast_ne_zero.mpr h
    have hval : (JNum.num (n : ℚ)).orDefault 70 = (n : ℚ) := by
      simp [JNum.orDefault, hq]
    rw [hval, jsRound_intCast, if_neg h]

/-! ## Redaction Plan Validator (src/lib/detection/sota/ralph.ts) -/

inductive RedactionStyle where
  | solid
  | pixelate
  | blur
  deriving DecidableEq, Repr

/-- Model of the TS check `validStyles.includes(r.style) ? r.style : "solid"`
with `validStyles = ["solid", "pixelate", "blur"]`. -/
def parseStyle (s : String) : RedactionStyle :=
  if s = "pixelate" then .pixelate
  else if s = "blur" then .blur
  else .solid

def RedactionStyle.asString : RedactionStyle → String
  | .solid => "solid"
  | .pixelate => "pixelate"
  | .blur => "blur"

/-- One raw redaction item from the planner response: the style is whatever
string arrived, numeric fields may be NaN or absent, and the reason is
`some s` exactly when `typeof r.reason === "string"`. -/
structure RawRedaction where
  style : String
  x : JNum
  y : JNum
  width : JNum
  height : JNum
  intensity : JNum
  reason : Option String
  deriving DecidableEq, Repr

/-- Raw planner output.  `redactions = none` models the case where the
`redactions` field is not an array (the code replaces it by `[]`), and
`explanation = none` the case where it is not a string. -/
structure RawPlan where
  redactions : Option (List RawRedaction)
  explanation : Option String
  deriving DecidableEq, Repr

structure RalphRedaction where
  style : RedactionStyle
  x : ℤ
  y : ℤ
  width : ℤ
  height : ℤ
  intensity : ℤ
  reason : String
  deriving DecidableEq, Repr

structure RalphPlan where
  redactions : List RalphRedaction
  explanation : String
  deriving DecidableEq, Repr

/-- Per-item body of `validateRalphResponse`: style check, the
`Math.round(Number(v) || default)` coercions, the clamps to image bounds,
the intensity clamp, and the reason default. -/
def validateRedactionItem (imageWidth imageHeight : ℤ) (r : RawRedaction) :
    RalphRedaction :=
  let style := parseStyle r.style
  let x0 := jsRound (r.x.orDefault 0)
  let y0 := jsRound (r.y.orDefault 0)
  let w0 := jsRound (r.width.orDefault 50)
  let h0 := jsRound (r.height.orDefault 50)
  let x := max 0 (min (imageWidth - 1) x0)
  let y := max 0 (min (imageHeight - 1) y0)
  let w := max 1 (min (imageWidth - x) w0)
  let h := max 1 (min (imageHeight - y) h0)
  let intensity := max 1 (min 100 (jsRound (r.intensity.orDefault 70)))
  let reason := r.reason.getD "Redacting PII"
  ⟨style, x, y, w, h, intensity, reason⟩

/-- Model of `validateRalphResponse(raw, imageWidth, imageHeight)`:
coerce the list, validate each item, drop items with non-positive
dimensions, and default the explanation. -/
def validateRalphResponse (raw : RawPlan) (imageWidth imageHeight : ℤ) :
    RalphPlan :=
  let redactions :=
    ((raw.redactions.getD []).map
        (validateRedactionItem imageWidth imageHeight)).filter
      (fun r => decide (0 < r.width ∧ 0 < r.height))
  let explanation := raw.explanation.getD "Redaction plan generated"
  ⟨redactions, explanation⟩

/-- Embedding of a validated plan back into raw form, for the idempotence
statement: a `RalphPlan` rendered as JSON and re-read yields exactly these
raw fields. -/
def RalphRedaction.toRaw (r : RalphRedaction) : RawRedaction :=
  ⟨r.style.asString, .num (r.x : ℚ), .num (r.y : ℚ), .num (r.width : ℚ),
    .num (r.height : ℚ), .num (r.intensity : ℚ), some r.reason⟩

def RalphPlan.toRaw (p : RalphPlan) : RawPlan :=
  ⟨some (p.redactions.map RalphRedaction.toRaw), some p.explanation⟩

theorem validateRedactionItem_pos (W H : ℤ) (r : RawRedaction) :
    1 ≤ (validateRedactionItem W H r).width ∧
      1 ≤ (validateRedactionItem W H r).height := by
  unfold validateRedactionItem
  exact ⟨le_max_left 1 _, le_max_left 1 _⟩

theorem validateRedactionItem_bounds (W H : ℤ) (hW : 1 ≤ W) (hH : 1 ≤ H)
    (r : RawRedaction) :
    0 ≤ (validateRedactionItem W H r).x ∧
      (validateRedactionItem W H r).x < W ∧
      0 ≤ (validateRedactionItem W H r).y ∧
      (validateRedactionItem W H r).y < H ∧
      (validateRedactionItem W H r).x + (validateRedactionItem W H r).width ≤ W ∧
      (validateRedactionItem W H r).y + (validateRedactionItem W H r).height ≤ H ∧
      1 ≤ (validateRedactionItem W H r).width ∧
      1 ≤ (validateRedactionItem W H r).height := by
  unfold validateRedactionItem
  simp only
  omega

theorem parseStyle_asString (st : RedactionStyle) :
    parseStyle st.asString = st := by
  cases st <;> rfl

theorem validateRedactionItem_idem (W H : ℤ) (r : RawRedaction) :
    validateRedactionItem W H ((validateRedactionItem W H r).toRaw) =
      validateRedactionItem W H r := by
  simp only [validateRedactionItem, RalphRedaction.toRaw, parseStyle_asString,
    jsRound_orDefault_zero, jsRound_orDefault_fifty, jsRound_orDefault_seventy,
    Option.getD_some, RalphRedaction.mk.injEq, true_and, and_true]
  refine ⟨?_, ?_, ?_, ?_, ?_⟩ <;> (try split) <;> omega


theorem jsRound_zeroQ : jsRound (0 : ℚ) = 0 := by
  rw [show (0 : ℚ) = ((0 : ℤ) : ℚ) by norm_num, jsRound_intCast]

theorem jsRound_fiftyQ : jsRound (50 : ℚ) = 50 := by
  rw [show (50 : ℚ) = ((50 : ℤ) : ℚ) by norm_num, jsRound_intCast]

/-- C1: for image dimensions at least 1, every redaction in the validated
plan lies inside the image with positive dimensions, and the specific
planner item with x equal to -5 and width 10000 on a 100 by 100 image is
clamped to the rectangle at (0, 10) of size 100 by 10. -/
theorem c1_validator_bounds (raw : RawPlan) (W H : ℤ) (hW : 1 ≤ W)
    (hH : 1 ≤ H) :
    (∀ r ∈ (validateRalphResponse raw W H).redactions,
        0 ≤ r.x ∧ r.x < W ∧ 0 ≤ r.y ∧ r.y < H ∧
          r.x + r.width ≤ W ∧ r.y + r.height ≤ H ∧
          1 ≤ r.width ∧ 1 ≤ r.height) ∧
      (validateRalphResponse
            ⟨some [⟨"solid", .num (-5), .num 10, .num 10000, .num 10,
              .num 70, some "face"⟩], some "plan"⟩ 100 100).redactions.map
          (fun r => (r.x, r.y, r.width, r.height)) = [(0, 10, 100, 10)] := by
  constructor
  · intro r hr
    simp only [validateRalphResponse] at hr
    obtain ⟨r0, hr0, rfl⟩ := List.mem_map.mp (List.mem_of_mem_filter hr)
    exact validateRedactionItem_bounds W H hW hH r0
  · have hitem : validateRedactionItem 100 100
        ⟨"solid", .num (-5), .num 10, .num 10000, .num 10, .num 70,
          some "face"⟩ = ⟨.solid, 0, 10, 100, 10, 70, "face"⟩ := by
      simp only [validateRedactionItem, JNum.orDefault, parseStyle]
      norm_num [jsRound]
      decide
    simp [validateRalphResponse, hitem]

/-- Concrete instance of `c1_validator_bounds` at image dimensions
100 by 100: the scenario from the specification. -/
theorem c1_validator_bounds_witness :
    (validateRalphResponse
          ⟨some [⟨"solid", .num (-5), .num 10, .num 10000, .num 10,
            .num 70, some "face"⟩], some "plan"⟩ 100 100).redactions.map
        (fun r => (r.x, r.y, r.width, r.height)) = [(0, 10, 100, 10)] :=
  (c1_validator_bounds ⟨none, none⟩ 100 100 (by norm_num) (by norm_num)).2

/-- C9: validating the output of the Validator again, with the same image
dimensions, returns the plan unchanged. -/
theorem c9_validator_idempotent (raw : RawPlan) (W H : ℤ) :
    validateRalphResponse ((validateRalphResponse raw W H).toRaw) W H =
      validateRalphResponse raw W H := by
  simp only [validateRalphResponse, RalphPlan.toRaw, Option.getD_some]
  rw [RalphPlan.mk.injEq]
  refine ⟨?_, rfl⟩
  rw [List.map_map]
  have hmap :
      (((raw.redactions.getD []).map (validateRedactionItem W H)).filter
            (fun r => decide (0 < r.width ∧ 0 < r.height))).map
          (validateRedactionItem W H ∘ RalphRedaction.toRaw) =
        ((raw.redactions.getD []).map (validateRedactionItem W H)).filter
          (fun r => decide (0 < r.width ∧ 0 < r.height)) := by
    have hall : ∀ a ∈ ((raw.redactions.getD []).map
        (validateRedactionItem W H)).filter
          (fun r => decide (0 < r.width ∧ 0 < r.height)),
        (validateRedactionItem W H ∘ RalphRedaction.toRaw) a = id a := by
      intro a ha
      obtain ⟨r0, _, rfl⟩ := List.mem_map.mp (List.mem_of_mem_filter ha)
      exact validateRedactionItem_idem W H r0
    rw [List.map_congr_left hall, List.map_id]
  rw [hmap]
  exact List.filter_eq_self.mpr (fun a ha => (List.mem_filter.mp ha).2)

/-- C10: a planner item whose geometry fields are NaN, absent, non-numeric
or zero is not dropped; each coordinate defaults to 0 and each dimension
to 50 before clamping, so on an image of at least 50 by 50 the item
becomes a concrete 50 by 50 rectangle at the origin. -/
theorem c10_missing_geometry_defaults (r : RawRedaction)
    (e : Option String) (W H : ℤ) (hW : 50 ≤ W) (hH : 50 ≤ H)
    (hx : r.x = .nan ∨ r.x = .num 0) (hy : r.y = .nan ∨ r.y = .num 0)
    (hw : r.width = .nan ∨ r.width = .num 0)
    (hh : r.height = .nan ∨ r.height = .num 0) :
    validateRalphResponse ⟨some [r], e⟩ W H =
      ⟨[⟨parseStyle r.style, 0, 0, 50, 50,
          max 1 (min 100 (jsRound (r.intensity.orDefault 70))),
          r.reason.getD "Redacting PII"⟩],
        e.getD "Redaction plan generated"⟩ := by
  have hx0 : r.x.orDefault 0 = 0 := by
    rcases hx with h | h <;> simp [h, JNum.orDefault]
  have hy0 : r.y.orDefault 0 = 0 := by
    rcases hy with h | h <;> simp [h, JNum.orDefault]
  have hw50 : r.width.orDefault 50 = 50 := by
    rcases hw with h | h <;> simp [h, JNum.orDefault]
  have hh50 : r.height.orDefault 50 = 50 := by
    rcases hh with h | h <;> simp [h, JNum.orDefault]
  have hitem : validateRedactionItem W H r =
      ⟨parseStyle r.style, 0, 0, 50, 50,
        max 1 (min 100 (jsRound (r.intensity.orDefault 70))),
        r.reason.getD "Redacting PII"⟩ := by
    simp only [validateRedactionItem, hx0, hy0, hw50, hh50, jsRound_zeroQ,
      jsRound_fiftyQ, RalphRedaction.mk.injEq, true_and, and_true]
    refine ⟨?_, ?_, ?_, ?_⟩ <;> omega
  simp only [validateRalphResponse, Option.getD_some, List.map_cons,
    List.map_nil, hitem, List.filter, RalphPlan.mk.injEq, and_true, true_and]
  norm_num

/-- Concrete instance of `c10_missing_geometry_defaults`: an item with NaN
or zero geometry on a 100 by 100 image yields a 50 by 50 box at the
origin with the default intensity and reason. -/
theorem c10_missing_geometry_defaults_witness :
    validateRalphResponse
        ⟨some [⟨"blur", .nan, .num 0, .nan, .num 0, .nan, none⟩], none⟩
        100 100 =
      ⟨[⟨.blur, 0, 0, 50, 50, 70, "Redacting PII"⟩],
        "Redaction plan generated"⟩ := by
  rw [c10_missing_geometry_defaults _ _ 100 100 (by norm_num) (by norm_num)
    (Or.inl rfl) (Or.inr rfl) (Or.inl rfl) (Or.inr rfl)]
  norm_num [JNum.orDefault, jsRound, parseStyle]
  decide

/-! ## Remote Inference Client (src/lib/detection/sota/openrouter.ts)

The fetch call and its JSON body are abstracted into `FetchResult`: the
request either aborts, fails to connect, or yields an HTTP response with
a status code and a body.  A body is either unparseable JSON or a parsed
object from which the code reads `errorBody.error?.message` (on the
non-2xx path) and `data.choices?.[0]?.message?.content` (on the 2xx
path); `content = none` covers a missing or non-string content field. -/

inductive APIErrorType where
  | auth
  | rate_limit
  | server
  | network
  | parse
  | unknown
  deriving DecidableEq, Repr

/-- Model of the `SOTAError` class carried by a rejected remote call. -/
structure SOTAErrorData where
  type : APIErrorType
  message : String
  retryable : Bool
  deriving DecidableEq, Repr

inductive ResponseBody where
  | malformedJson
  | json (errorMessage : Option String) (content : Option String)
  deriving DecidableEq, Repr

inductive FetchResult where
  | aborted
  | connectFailed
  | response (status : ℕ) (body : ResponseBody)
  deriving DecidableEq, Repr

/-- Model of `response.ok`: HTTP status in the 200 to 299 range. -/
def responseOk (status : ℕ) : Bool := 200 ≤ status && status ≤ 299

/-- Model of `mapStatusToErrorType` from openrouter.ts. -/
def mapStatusToErrorType (status : ℕ) : APIErrorType :=
  if status = 401 ∨ status = 403 then .auth
  else if status = 429 then .rate_limit
  else if 500 ≤ status then .server
  else .unknown

/-- Model of `callOpenRouter` as a function of the fetch outcome: the
abort and connection-failure catches, the non-2xx status mapping with the
error-body message extraction, the response JSON parse, and the
missing-or-empty content check. -/
def callOpenRouter (r : FetchResult) : Except SOTAErrorData String :=
  match r with
  | .aborted => .error ⟨.network, "Request was cancelled", false⟩
  | .connectFailed => .error ⟨.network, "Failed to connect to OpenRouter", true⟩
  | .response status body =>
    if responseOk status then
      match body with
      | .malformedJson =>
          .error ⟨.parse, "Failed to parse OpenRouter response", false⟩
      | .json _ none => .error ⟨.parse, "Empty response from OpenRouter", true⟩
      | .json _ (some c) =>
          if c = "" then .error ⟨.parse, "Empty response from OpenRouter", true⟩
          else .ok c
    else
      let errorType := mapStatusToErrorType status
      let errorMessage :=
        match body with
        | .json (some m) _ => m
        | _ => "OpenRouter API error: " ++ toString status
      .error ⟨errorType, errorMessage,
        decide (errorType = .rate_limit ∨ errorType = .server)⟩

/-- C6 counterexample: an HTTP 404 failure produces the error kind
`unknown`, which is outside the set of kinds named by the claim. -/
theorem c6_unknown_kind_counterexample :
    callOpenRouter (.response 404 (.json (some "Not Found") none)) =
        .error ⟨.unknown, "Not Found", false⟩ ∧
      APIErrorType.unknown ≠ .auth ∧ APIErrorType.unknown ≠ .rate_limit ∧
      APIErrorType.unknown ≠ .server ∧ APIErrorType.unknown ≠ .network ∧
      APIErrorType.unknown ≠ .parse := by
  refine ⟨?_, by decide, by decide, by decide, by decide, by decide⟩
  rfl
/-- C6 as amended: the kind of every remote-call failure is fully
determined: network for an abort or connection failure, parse for any
failure on a 2xx response (malformed JSON or missing or empty content),
and otherwise the status mapping, in which auth arises exactly for HTTP
401 or 403, rate_limit exactly for 429, server exactly for 500 and above,
and the kind unknown — absent from the specification table — for every
other non-2xx status. -/
theorem c6_error_kinds (r : FetchResult) (e : SOTAErrorData)
    (h : callOpenRouter r = .error e) :
    (e.type = match r with
      | .aborted => .network
      | .connectFailed => .network
      | .response st _ =>
          if responseOk st then .parse else mapStatusToErrorType st) ∧
      (∀ st : ℕ,
        (mapStatusToErrorType st = .auth ↔ (st = 401 ∨ st = 403)) ∧
        (mapStatusToErrorType st = .rate_limit ↔ st = 429) ∧
        (mapStatusToErrorType st = .server ↔ 500 ≤ st) ∧
        (mapStatusToErrorType st = .unknown ↔
          (st ≠ 401 ∧ st ≠ 403 ∧ st ≠ 429 ∧ st < 500)) ∧
        mapStatusToErrorType st ≠ .network ∧
        mapStatusToErrorType st ≠ .parse) := by
  constructor
  · match r with
    | .aborted =>
      simp only [callOpenRouter, Except.error.injEq] at h
      subst h
      rfl
    | .connectFailed =>
      simp only [callOpenRouter, Except.error.injEq] at h
      subst h
      rfl
    | .response status .malformedJson =>
      simp only [callOpenRouter] at h
      by_cases hok : responseOk status = true
      · rw [if_pos hok] at h
        simp only [Except.error.injEq] at h
        subst h
        simp [hok]
      · rw [if_neg hok] at h
        simp only [Except.error.injEq] at h
        subst h
        simp [hok]
    | .response status (.json em none) =>
      simp only [callOpenRouter] at h
      by_cases hok : responseOk status = true
      · rw [if_pos hok] at h
        simp only [Except.error.injEq] at h
        subst h
        simp [hok]
      · rw [if_neg hok] at h
        simp only [Except.error.injEq] at h
        subst h
        simp [hok]
    | .response status (.json em (some c)) =>
      simp only [callOpenRouter] at h
      by_cases hok : responseOk status = true
      · rw [if_pos hok] at h
        by_cases hc : c = ""
        · rw [if_pos hc] at h
          simp only [Except.error.injEq] at h
          subst h
          simp [hok]
        · rw [if_neg hc] at h
          exact absurd h (by simp)
      · rw [if_neg hok] at h
        simp only [Except.error.injEq] at h
        subst h
        simp [hok]
  · intro st
    unfold mapStatusToErrorType
    by_cases h1 : st = 401 ∨ st = 403
    · rw [if_pos h1]
      refine ⟨by simp [h1], ?_, ?_, ?_, by simp, by simp⟩ <;>
        (simp only [reduceCtorEq, false_iff]; rcases h1 with h | h <;> omega)
    · rw [if_neg h1]
      by_cases h2 : st = 429
      · rw [if_pos h2]
        push_neg at h1
        refine ⟨?_, by simp [h2], ?_, ?_, by simp, by simp⟩ <;>
          (simp only [reduceCtorEq, false_iff]; omega)
      · rw [if_neg h2]
        push_neg at h1
        by_cases h3 : 500 ≤ st
        · rw [if_pos h3]
          refine ⟨?_, ?_, by simp [h3], ?_, by simp, by simp⟩ <;>
            (simp only [reduceCtorEq, false_iff]; omega)
        · rw [if_neg h3]
          refine ⟨?_, ?_, ?_, ?_, by simp, by simp⟩ <;>
            simp only [reduceCtorEq, false_iff, true_iff] <;> omega

/-- Concrete instance of `c6_error_kinds`: the classification of the
HTTP 404 failure. -/
theorem c6_error_kinds_witness :
    SOTAErrorData.type ⟨.unknown, "Not Found", false⟩ =
      (if responseOk 404 then APIErrorType.parse
        else mapStatusToErrorType 404) :=
  (c6_error_kinds (.response 404 (.json (some "Not Found") none))
    ⟨.unknown, "Not Found", false⟩ rfl).1

/-! ## Ralph-Lisa Loop Orchestrator (src/lib/detection/sota/index.ts)

The loop body of `startRalphLisaLoop` is embedded as a recursion over the
remaining step budget.  The remote evaluator is an oracle
`evals : ℕ → EvalOutcome` giving, for each step, either the validated
Lisa evaluation or the fact that the abort token fired while the evaluate
call was in flight (in which case `callOpenRouter` raises the network
SOTAError with message "Request was cancelled", caught by the top-level
catch of the loop).  The planner result for each step is an oracle
`plans : ℕ → RalphPlan`, standing for the value `planWithRalph` returns;
`applyRedactions` is modelled on its success path, in which every planned
redaction is applied and returned (per-item failures only skip items and
are irrelevant to the claims below).  The wall-clock `timestamp` field of
an iteration is not modelled.  Remote and apply activity is recorded in
an event trace. -/

structure VisibleLeak where
  type : String
  description : String
  deriving DecidableEq, Repr

structure LisaEvaluation where
  vaguenessScore : ℚ
  visibleLeaks : List VisibleLeak
  reasoning : String
  deriving DecidableEq, Repr

inductive LoopStatus where
  | idle
  | evaluating
  | planning
  | redacting
  | completed
  | max_steps
  | cancelled
  | error
  deriving DecidableEq, Repr

structure LoopIteration where
  step : ℕ
  evaluation : LisaEvaluation
  plan : Option RalphPlan
  appliedRedactions : List RalphRedaction
  deriving DecidableEq, Repr

/-- The sotaStore state (src/lib/stores/sota.ts), without the session-held
API key, which plays no role in the claims below. -/
structure SOTAState where
  targetScore : ℚ
  maxSteps : ℕ
  isRunning : Bool
  status : LoopStatus
  currentStep : ℕ
  currentScore : Option ℚ
  iterations : List LoopIteration
  error : Option String
  deriving DecidableEq, Repr

/-- Model of `sotaStore.startLoop`. -/
def SOTAState.startLoop (s : SOTAState) : SOTAState :=
  { s with
    isRunning := true
    status := .evaluating
    currentStep := 0
    currentScore := none
    iterations := []
    error := none }

/-- Model of `sotaStore.updateStatus`. -/
def SOTAState.updateStatus (s : SOTAState) (st : LoopStatus) : SOTAState :=
  { s with status := st }

/-- Model of `sotaStore.setCurrentStep`. -/
def SOTAState.setCurrentStep (s : SOTAState) (n : ℕ) : SOTAState :=
  { s with currentStep := n }

/-- Model of `sotaStore.setCurrentScore`. -/
def SOTAState.setCurrentScore (s : SOTAState) (q : ℚ) : SOTAState :=
  { s with currentScore := some q }

/-- Model of `sotaStore.addIteration`. -/
def SOTAState.addIteration (s : SOTAState) (it : LoopIteration) : SOTAState :=
  { s with iterations := s.iterations ++ [it] }

/-- Model of `sotaStore.setError`. -/
def SOTAState.setError (s : SOTAState) (msg : String) : SOTAState :=
  { s with isRunning := false, status := .error, error := some msg }

/-- Model of `sotaStore.complete`. -/
def SOTAState.complete (s : SOTAState) (st : LoopStatus) : SOTAState :=
  { s with isRunning := false, status := st }

inductive EvalOutcome where
  | ok (e : LisaEvaluation)
  | aborted
  deriving DecidableEq, Repr

inductive LoopEvent where
  | evaluateCall (step : ℕ)
  | planCall (step : ℕ)
  | applyCall (step : ℕ)
  deriving DecidableEq, Repr

/-- One pass of the `for` loop of `startRalphLisaLoop` from a given step
with the given remaining budget.  `target` is the snapshot
`state.targetScore` read before the loop, as in the source.  An exhausted
budget is the loop exit, after which the source sets status `max_steps`. -/
def runLoopFrom (target : ℚ) (evals : ℕ → EvalOutcome)
    (plans : ℕ → RalphPlan) (step fuel : ℕ) (s : SOTAState)
    (trace : List LoopEvent) : SOTAState × List LoopEvent :=
  match fuel with
  | 0 => (s.complete .max_steps, trace)
  | fuel + 1 =>
    let s := (s.setCurrentStep step).updateStatus .evaluating
    match evals step with
    | .aborted =>
      (s.setError "Request was cancelled", trace ++ [.evaluateCall step])
    | .ok ev =>
      let s := s.setCurrentScore ev.vaguenessScore
      let trace := trace ++ [.evaluateCall step]
      if target ≤ ev.vaguenessScore then
        ((s.addIteration ⟨step, ev, none, []⟩).complete .completed, trace)
      else
        let s := s.updateStatus .planning
        let plan := plans step
        let trace := trace ++ [.planCall step]
        let s := s.updateStatus .redacting
        let applied := plan.redactions
        let trace := trace ++ [.applyCall step]
        let s := s.addIteration ⟨step, ev, some plan, applied⟩
        runLoopFrom target evals plans (step + 1) fuel s trace

/-- Model of `startRalphLisaLoop` after its API-key and image guards:
`sotaStore.startLoop`, then the loop over steps 1 to maxSteps. -/
def startRalphLisaLoop (maxSteps : ℕ) (target : ℚ)
    (evals : ℕ → EvalOutcome) (plans : ℕ → RalphPlan) (s0 : SOTAState) :
    SOTAState × List LoopEvent :=
  runLoopFrom target evals plans 1 maxSteps s0.startLoop []

/-- The state of sota.ts before any run: `initialState` with
`targetScore` 0.7 and `maxSteps` 5. -/
def initialSOTAState : SOTAState :=
  ⟨7 / 10, 5, false, .idle, 0, none, [], none⟩

/-- Abbreviation for a loop run in which no evaluate call aborts. -/
def runLoopOk (target : ℚ) (f : ℕ → LisaEvaluation)
    (plans : ℕ → RalphPlan) (step fuel : ℕ) (s : SOTAState)
    (trace : List LoopEvent) : SOTAState × List LoopEvent :=
  runLoopFrom target (fun n => .ok (f n)) plans step fuel s trace

theorem runLoopOk_zero (target : ℚ) (f : ℕ → LisaEvaluation)
    (plans : ℕ → RalphPlan) (step : ℕ) (s : SOTAState)
    (trace : List LoopEvent) :
    runLoopOk target f plans step 0 s trace =
      (s.complete .max_steps, trace) := rfl

theorem runLoopOk_succ (target : ℚ) (f : ℕ → LisaEvaluation)
    (plans : ℕ → RalphPlan) (step fuel : ℕ) (s : SOTAState)
    (trace : List LoopEvent) :
    runLoopOk target f plans step (fuel + 1) s trace =
      if target ≤ (f step).vaguenessScore then
        (((((s.setCurrentStep step).updateStatus .evaluating).setCurrentScore
            (f step).vaguenessScore).addIteration
              ⟨step, f step, none, []⟩).complete .completed,
          trace ++ [.evaluateCall step])
      else
        runLoopOk target f plans (step + 1) fuel
          ((((((s.setCurrentStep step).updateStatus .evaluating).setCurrentScore
              (f step).vaguenessScore).updateStatus .planning).updateStatus
                .redacting).addIteration
            ⟨step, f step, some (plans step), (plans step).redactions⟩)
          (trace ++ [.evaluateCall step] ++ [.planCall step] ++
            [.applyCall step]) := rfl

theorem runLoopOk_basic (target : ℚ) (f : ℕ → LisaEvaluation)
    (plans : ℕ → RalphPlan) (fuel : ℕ) :
    ∀ (step : ℕ) (s : SOTAState) (trace : List LoopEvent),
      ((runLoopOk target f plans step fuel s trace).1.status = .completed ∨
        (runLoopOk target f plans step fuel s trace).1.status = .max_steps) ∧
      (runLoopOk target f plans step fuel s trace).1.iterations.length ≤
        s.iterations.length + fuel ∧
      ((runLoopOk target f plans step fuel s trace).1.status = .completed →
        ∃ it, (runLoopOk target f plans step fuel s
            trace).1.iterations.getLast? = some it ∧ it.plan = none ∧
          it.appliedRedactions = [] ∧
          target ≤ (f it.step).vaguenessScore) := by
  induction fuel with
  | zero =>
    intro step s trace
    rw [runLoopOk_zero]
    refine ⟨Or.inr rfl, by simp [SOTAState.complete], ?_⟩
    intro hc
    exact absurd hc (by simp [SOTAState.complete])
  | succ fuel ih =>
    intro step s trace
    rw [runLoopOk_succ]
    by_cases h : target ≤ (f step).vaguenessScore
    · rw [if_pos h]
      refine ⟨Or.inl rfl, ?_, ?_⟩
      · simp [SOTAState.complete, SOTAState.addIteration,
          SOTAState.setCurrentScore, SOTAState.updateStatus,
          SOTAState.setCurrentStep]
      · intro _
        refine ⟨⟨step, f step, none, []⟩, ?_, rfl, rfl, h⟩
        simp [SOTAState.complete, SOTAState.addIteration,
          SOTAState.setCurrentScore, SOTAState.updateStatus,
          SOTAState.setCurrentStep]
    · rw [if_neg h]
      obtain ⟨h1, h2, h3⟩ := ih (step + 1)
        ((((((s.setCurrentStep step).updateStatus .evaluating).setCurrentScore
            (f step).vaguenessScore).updateStatus .planning).updateStatus
              .redacting).addIteration
          ⟨step, f step, some (plans step), (plans step).redactions⟩)
        (trace ++ [.evaluateCall step] ++ [.planCall step] ++
          [.applyCall step])
      refine ⟨h1, ?_, h3⟩
      refine le_trans h2 ?_
      simp [SOTAState.addIteration, SOTAState.setCurrentScore,
        SOTAState.updateStatus, SOTAState.setCurrentStep]
      omega

theorem runLoopOk_below (target : ℚ) (f : ℕ → LisaEvaluation)
    (plans : ℕ → RalphPlan) (fuel : ℕ) :
    ∀ (step : ℕ) (s : SOTAState) (trace : List LoopEvent),
      (∀ m, step ≤ m → m < step + fuel → (f m).vaguenessScore < target) →
      (runLoopOk target f plans step fuel s trace).1.status = .max_steps := by
  induction fuel with
  | zero =>
    intro step s trace _
    rw [runLoopOk_zero]
    rfl
  | succ fuel ih =>
    intro step s trace hbelow
    rw [runLoopOk_succ]
    have hstep : (f step).vaguenessScore < target :=
      hbelow step le_rfl (by omega)
    rw [if_neg (not_le.mpr hstep)]
    exact ih (step + 1) _ _ (fun m hm hm2 => hbelow m (by omega) (by omega))

theorem runLoopOk_reach (target : ℚ) (f : ℕ → LisaEvaluation)
    (plans : ℕ → RalphPlan) (fuel : ℕ) :
    ∀ (step : ℕ) (s : SOTAState) (trace : List LoopEvent),
      (∃ n, step ≤ n ∧ n < step + fuel ∧ target ≤ (f n).vaguenessScore) →
      (runLoopOk target f plans step fuel s trace).1.status = .completed := by
  induction fuel with
  | zero =>
    intro step s trace h
    obtain ⟨n, h1, h2, _⟩ := h
    omega
  | succ fuel ih =>
    intro step s trace h
    rw [runLoopOk_succ]
    by_cases hstep : target ≤ (f step).vaguenessScore
    · rw [if_pos hstep]
      rfl
    · rw [if_neg hstep]
      obtain ⟨n, h1, h2, h3⟩ := h
      refine ih (step + 1) _ _ ⟨n, ?_, by omega, h3⟩
      rcases Nat.eq_or_lt_of_le h1 with rfl | hlt
      · exact absurd h3 hstep
      · omega

/-- Soundness of a recorded loop event with respect to the evaluator
scores: an evaluate call at step n can only happen when no earlier step
reached the target, and a plan or apply call at step n only when no step
up to n (n included) reached the target. -/
def EventBelow (target : ℚ) (f : ℕ → LisaEvaluation) : LoopEvent → Prop
  | .evaluateCall n => ∀ m, 1 ≤ m → m < n → (f m).vaguenessScore < target
  | .planCall n => ∀ m, 1 ≤ m → m ≤ n → (f m).vaguenessScore < target
  | .applyCall n => ∀ m, 1 ≤ m → m ≤ n → (f m).vaguenessScore < target

theorem runLoopOk_events (target : ℚ) (f : ℕ → LisaEvaluation)
    (plans : ℕ → RalphPlan) (fuel : ℕ) :
    ∀ (step : ℕ) (s : SOTAState) (trace : List LoopEvent),
      1 ≤ step →
      (∀ m, 1 ≤ m → m < step → (f m).vaguenessScore < target) →
      (∀ e ∈ trace, EventBelow target f e) →
      ∀ e ∈ (runLoopOk target f plans step fuel s trace).2,
        EventBelow target f e := by
  induction fuel with
  | zero =>
    intro step s trace _ _ htrace
    rw [runLoopOk_zero]
    exact htrace
  | succ fuel ih =>
    intro step s trace hstep hprev htrace
    rw [runLoopOk_succ]
    by_cases h : target ≤ (f step).vaguenessScore
    · rw [if_pos h]
      intro e he
      rcases List.mem_append.mp he with he | he
      · exact htrace e he
      · rw [List.mem_singleton.mp he]
        exact hprev
    · rw [if_neg h]
      refine ih (step + 1) _ _ (by omega) ?_ ?_
      · intro m hm1 hm2
        rcases Nat.lt_succ_iff_lt_or_eq.mp hm2 with hm | rfl
        · exact hprev m hm1 hm
        · exact not_le.mp h
      · intro e he
        have hupto : ∀ m, 1 ≤ m → m ≤ step → (f m).vaguenessScore < target := by
          intro m hm1 hm2
          rcases Nat.eq_or_lt_of_le hm2 with rfl | hm
          · exact not_le.mp h
          · exact hprev m hm1 hm
        rcases List.mem_append.mp he with he | he
        · rcases List.mem_append.mp he with he | he
          · rcases List.mem_append.mp he with he | he
            · exact htrace e he
            · rw [List.mem_singleton.mp he]
              exact fun m hm1 hm2 => hprev m hm1 hm2
          · rw [List.mem_singleton.mp he]
            exact hupto
        · rw [List.mem_singleton.mp he]
          exact hupto

/-- C2: with every evaluate call returning normally, the loop halts within
maxSteps steps with status completed or max_steps; a step whose score
reaches the target records a terminal iteration with no plan and no
applied redactions and is the last recorded activity; the planner is
invoked at a step only if no score up to that step reached the target,
and an evaluate call at a step happens only if no earlier score reached
the target; if every score within the budget is below the target, the
final status is max_steps. -/
theorem c2_loop_termination (maxSteps : ℕ) (target : ℚ)
    (f : ℕ → LisaEvaluation) (plans : ℕ → RalphPlan) (s0 : SOTAState) :
    (startRalphLisaLoop maxSteps target (fun n => .ok (f n)) plans
          s0).1.iterations.length ≤ maxSteps ∧
      ((startRalphLisaLoop maxSteps target (fun n => .ok (f n)) plans
          s0).1.status = .completed ∨
        (startRalphLisaLoop maxSteps target (fun n => .ok (f n)) plans
          s0).1.status = .max_steps) ∧
      ((startRalphLisaLoop maxSteps target (fun n => .ok (f n)) plans
          s0).1.status = .completed →
        ∃ it, (startRalphLisaLoop maxSteps target (fun n => .ok (f n))
            plans s0).1.iterations.getLast? = some it ∧ it.plan = none ∧
          it.appliedRedactions = [] ∧
          target ≤ (f it.step).vaguenessScore) ∧
      ((∃ n, 1 ≤ n ∧ n ≤ maxSteps ∧ target ≤ (f n).vaguenessScore) →
        (startRalphLisaLoop maxSteps target (fun n => .ok (f n)) plans
          s0).1.status = .completed) ∧
      ((∀ n, 1 ≤ n → n ≤ maxSteps → (f n).vaguenessScore < target) →
        (startRalphLisaLoop maxSteps target (fun n => .ok (f n)) plans
          s0).1.status = .max_steps) ∧
      (∀ n, LoopEvent.planCall n ∈ (startRalphLisaLoop maxSteps target
          (fun n => .ok (f n)) plans s0).2 →
        ∀ m, 1 ≤ m → m ≤ n → (f m).vaguenessScore < target) ∧
      (∀ n, LoopEvent.evaluateCall n ∈ (startRalphLisaLoop maxSteps target
          (fun n => .ok (f n)) plans s0).2 →
        ∀ m, 1 ≤ m → m < n → (f m).vaguenessScore < target) := by
  have hrun : startRalphLisaLoop maxSteps target (fun n => .ok (f n))
      plans s0 = runLoopOk target f plans 1 maxSteps s0.startLoop [] := rfl
  rw [hrun]
  obtain ⟨h1, h2, h3⟩ := runLoopOk_basic target f plans maxSteps 1
    s0.startLoop []
  have hlen0 : s0.startLoop.iterations.length = 0 := by
    simp [SOTAState.startLoop]
  refine ⟨by omega, h1, h3, ?_, ?_, ?_, ?_⟩
  · intro ⟨n, hn1, hn2, hn3⟩
    exact runLoopOk_reach target f plans maxSteps 1 s0.startLoop []
      ⟨n, hn1, by omega, hn3⟩
  · intro hbelow
    exact runLoopOk_below target f plans maxSteps 1 s0.startLoop []
      (fun m hm1 hm2 => hbelow m hm1 (by omega))
  · intro n hn m hm1 hm2
    have := runLoopOk_events target f plans maxSteps 1 s0.startLoop []
      le_rfl (by omega) (by simp) (.planCall n) hn
    exact this m hm1 hm2
  · intro n hn m hm1 hm2
    have := runLoopOk_events target f plans maxSteps 1 s0.startLoop []
      le_rfl (by omega) (by simp) (.evaluateCall n) hn
    exact this m hm1 hm2

/-- Concrete instance of `c2_loop_termination`: the scenario from the
specification, in which the first evaluation scores 0.95 against target
0.7, so the loop completes after step 1 and the planner is never
invoked. -/
theorem c2_loop_termination_witness :
    (startRalphLisaLoop 5 (7 / 10)
          (fun _ => .ok ⟨95 / 100, [], "high"⟩) (fun _ => ⟨[], "p"⟩)
          initialSOTAState).1.status = .completed ∧
      LoopEvent.planCall 1 ∉ (startRalphLisaLoop 5 (7 / 10)
          (fun _ => .ok ⟨95 / 100, [], "high"⟩) (fun _ => ⟨[], "p"⟩)
          initialSOTAState).2 := by
  have h := c2_loop_termination 5 (7 / 10)
    (fun _ => ⟨95 / 100, [], "high"⟩) (fun _ => ⟨[], "p"⟩) initialSOTAState
  refine ⟨h.2.2.2.1 ⟨1, le_rfl, by omega, by norm_num⟩, ?_⟩
  intro hmem
  have := h.2.2.2.2.2.1 1 hmem 1 le_rfl le_rfl
  norm_num at this

/-- C3: the code bug at the failing input.  If cancellation fires while
the step-1 evaluate call is in flight, `callOpenRouter` converts the
AbortError into a network-kind SOTAError with message "Request was
cancelled"; the top-level catch of `startRalphLisaLoop` therefore takes
the SOTAError branch and sets status error — not cancelled, even though
the dead `err.name === "AbortError"` branch of the same catch and the
specification both expect cancelled.  No plan and no apply activity
happens for that step. -/
theorem c3_abort_during_evaluate_yields_error :
    ((startRalphLisaLoop 5 (7 / 10) (fun _ => .aborted)
          (fun _ => ⟨[], "p"⟩) initialSOTAState).1.status = .error ∧
        (startRalphLisaLoop 5 (7 / 10) (fun _ => .aborted)
          (fun _ => ⟨[], "p"⟩) initialSOTAState).1.status ≠ .cancelled ∧
        (startRalphLisaLoop 5 (7 / 10) (fun _ => .aborted)
          (fun _ => ⟨[], "p"⟩) initialSOTAState).1.error =
          some "Request was cancelled") ∧
      (startRalphLisaLoop 5 (7 / 10) (fun _ => .aborted)
          (fun _ => ⟨[], "p"⟩) initialSOTAState).2 = [.evaluateCall 1] ∧
      (∀ n, LoopEvent.planCall n ∉ (startRalphLisaLoop 5 (7 / 10)
          (fun _ => .aborted) (fun _ => ⟨[], "p"⟩) initialSOTAState).2) ∧
      (∀ n, LoopEvent.applyCall n ∉ (startRalphLisaLoop 5 (7 / 10)
          (fun _ => .aborted) (fun _ => ⟨[], "p"⟩) initialSOTAState).2) := by
  refine ⟨⟨rfl, by decide, rfl⟩, rfl, ?_, ?_⟩ <;>
    · intro n hn
      have : (startRalphLisaLoop 5 (7 / 10) (fun _ => .aborted)
          (fun _ => ⟨[], "p"⟩) initialSOTAState).2 = [.evaluateCall 1] := rfl
      rw [this] at hn
      simp at hn

/-! ## Detection data model (src/lib/detection/types.ts)

Detector-generated ids come from `Math.random().toString(36)`; they play
no role in any claim, so the mappers below produce the empty string in
the id field. -/

inductive DetectionType where
  | face
  | text
  | license_plate
  | document
  deriving DecidableEq, Repr

inductive DetectionBackend where
  | webgpu
  | webgl
  | cpu
  deriving DecidableEq, Repr

structure BBox where
  x : ℚ
  y : ℚ
  width : ℚ
  height : ℚ
  deriving DecidableEq, Repr

structure Detection where
  id : String
  type : DetectionType
  bbox : BBox
  confidence : ℚ
  selected : Bool
  label : Option String
  deriving DecidableEq, Repr

/-- The per-type model-loaded map of the detection store. -/
structure ModelsLoaded where
  face : Bool
  text : Bool
  license_plate : Bool
  document : Bool
  deriving DecidableEq, Repr

def ModelsLoaded.get : ModelsLoaded → DetectionType → Bool
  | m, .face => m.face
  | m, .text => m.text
  | m, .license_plate => m.license_plate
  | m, .document => m.document

def ModelsLoaded.set : ModelsLoaded → DetectionType → Bool → ModelsLoaded
  | m, .face, b => { m with face := b }
  | m, .text, b => { m with text := b }
  | m, .license_plate, b => { m with license_plate := b }
  | m, .document, b => { m with document := b }

/-! ## Detection store (src/lib/stores/detection.ts) -/

structure DetectionState where
  isDetecting : Bool
  isDownloading : Bool
  downloadProgress : ℚ
  progress : ℚ
  currentStage : String
  results : List Detection
  error : Option String
  modelsLoaded : ModelsLoaded
  hasUserConsent : Bool
  enabledTypes : List DetectionType
  backend : Option DetectionBackend
  isPanelOpen : Bool
  deriving DecidableEq, Repr

/-- Model of detection.ts `initialState`. -/
def initialDetectionState : DetectionState :=
  ⟨false, false, 0, 0, "", [], none, ⟨false, false, false, false⟩, false,
    [.face, .text, .license_plate, .document], none, false⟩

def DetectionState.startDownload (s : DetectionState) : DetectionState :=
  { s with
    isDownloading := true
    downloadProgress := 0
    currentStage := "Downloading AI models..." }

def DetectionState.updateDownloadProgress (s : DetectionState) (p : ℚ)
    (stage : String) : DetectionState :=
  { s with downloadProgress := p, currentStage := stage }

def DetectionState.finishDownload (s : DetectionState) : DetectionState :=
  { s with isDownloading := false, downloadProgress := 100 }

def DetectionState.startDetection (s : DetectionState) : DetectionState :=
  { s with
    isDetecting := true
    progress := 0
    currentStage := "Initializing..."
    error := none
    results := [] }

def DetectionState.updateProgress (s : DetectionState) (p : ℚ)
    (stage : String) : DetectionState :=
  { s with progress := p, currentStage := stage }

def DetectionState.addResults (s : DetectionState) (ds : List Detection) :
    DetectionState :=
  { s with results := s.results ++ ds }

def DetectionState.finishDetection (s : DetectionState) : DetectionState :=
  { s with isDetecting := false, progress := 100, currentStage := "Complete" }

def DetectionState.setError (s : DetectionState) (msg : String) :
    DetectionState :=
  { s with isDetecting := false, error := some msg, currentStage := "Error" }

def DetectionState.setModelLoaded (s : DetectionState) (t : DetectionType)
    (b : Bool) : DetectionState :=
  { s with modelsLoaded := s.modelsLoaded.set t b }

def DetectionState.setBackend (s : DetectionState) (b : DetectionBackend) :
    DetectionState :=
  { s with backend := some b }

def DetectionState.clearResults (s : DetectionState) : DetectionState :=
  { s with
    results := []
    progress := 0
    downloadProgress := 0
    isDetecting := false
    isDownloading := false
    currentStage := ""
    error := none }

/-- Model of the derived store `needsModelDownload`: some enabled type
has no loaded model. -/
def needsModelDownload (s : DetectionState) : Bool :=
  s.enabledTypes.any (fun t => !(s.modelsLoaded.get t))

/-! ## Raw detector outputs and their mapping to Detections -/

/-- A raw MediaPipe face detection: `boundingBox` may be absent, and the
top category may be absent. -/
structure FaceBoundingBox where
  originX : ℚ
  originY : ℚ
  width : ℚ
  height : ℚ
  deriving DecidableEq, Repr

structure FaceCategory where
  score : ℚ
  deriving DecidableEq, Repr

structure FaceRawDetection where
  boundingBox : Option FaceBoundingBox
  categories : List FaceCategory
  deriving DecidableEq, Repr

/-- The result mapping of `detectFaces` in mediapipe-face.ts: absent
boxes and scores default to 0 through the `?? 0` fallbacks; no clamping
or filtering is applied. -/
def faceRawToDetection (d : FaceRawDetection) : Detection :=
  { id := ""
    type := .face
    bbox := ⟨(d.boundingBox.map (fun b => b.originX)).getD 0,
      (d.boundingBox.map (fun b => b.originY)).getD 0,
      (d.boundingBox.map (fun b => b.width)).getD 0,
      (d.boundingBox.map (fun b => b.height)).getD 0⟩
    confidence := ((d.categories.head?.map (fun c => c.score))).getD 0
    selected := true
    label := some ("Face (" ++
      toString (jsRound ((((d.categories.head?.map
        (fun c => c.score))).getD 0) * 100)) ++ "%)") }

def detectFaces (results : List FaceRawDetection) : List Detection :=
  results.map faceRawToDetection

/-- A raw transformers.js object-detection result as consumed by
worker.ts. -/
structure DetrBox where
  xmin : ℚ
  ymin : ℚ
  xmax : ℚ
  ymax : ℚ
  deriving DecidableEq, Repr

structure DetrResult where
  label : String
  score : ℚ
  box : DetrBox
  deriving DecidableEq, Repr

def documentAllowList : List String :=
  ["book", "laptop", "cell phone", "tv", "monitor"]

/-- The result loop of `detectDocuments` in worker.ts: keep results whose
lower-cased label is in the allow list with score above 0.5; geometry is
copied unclamped from the raw box. -/
def detectDocumentsResults (results : List DetrResult) : List Detection :=
  (results.filter (fun r =>
      decide (r.label.toLower ∈ documentAllowList) &&
        decide ((1 : ℚ) / 2 < r.score))).map
    (fun r => ⟨"", .document,
      ⟨r.box.xmin, r.box.ymin, r.box.xmax - r.box.xmin,
        r.box.ymax - r.box.ymin⟩, r.score, true, some r.label⟩)

/-- The result loop of `detectLicensePlates` in worker.ts: keep results
with score above 0.3; geometry is copied unclamped from the raw box. -/
def detectLicensePlatesResults (results : List DetrResult) : List Detection :=
  (results.filter (fun r => decide ((3 : ℚ) / 10 < r.score))).map
    (fun r => ⟨"", .license_plate,
      ⟨r.box.xmin, r.box.ymin, r.box.xmax - r.box.xmin,
        r.box.ymax - r.box.ymin⟩, r.score, true,
      some ("License Plate (" ++ toString (jsRound (r.score * 100)) ++
        "%)")⟩)

/-- A raw Tesseract word box as consumed by `runTextDetection`. -/
structure TessWord where
  confidence : ℚ
  text : String
  x0 : ℚ
  y0 : ℚ
  x1 : ℚ
  y1 : ℚ
  deriving DecidableEq, Repr

/-- The word loop of `runTextDetection` in manager.ts: keep words with
confidence above 60 and non-blank trimmed text; confidence is divided by
100; geometry is copied unclamped from the word box. -/
def textDetections (words : List TessWord) : List Detection :=
  (words.filter (fun w =>
      decide (60 < w.confidence) && decide (0 < w.text.trim.length))).map
    (fun w => ⟨"", .text, ⟨w.x0, w.y0, w.x1 - w.x0, w.y1 - w.y0⟩,
      w.confidence / 100, true, some w.text⟩)

/-! ## Detection manager (src/lib/detection/manager.ts) and Executor
(src/lib/detection/worker.ts)

`ManagerEnv` packages the module-level and external facts the manager
reads: whether an image is loaded, whether the worker and the Tesseract
engine already exist, the probed backend, and the raw outputs the
device-bound engines would return.  Progress callbacks fired
asynchronously by the engines themselves (the Tesseract recognition
logger and the MediaPipe download progress callback) are not modelled;
the directly issued store updates are. -/

structure ManagerEnv where
  imageLoaded : Bool
  workerExists : Bool
  backend : DetectionBackend
  tesseractReady : Bool
  words : List TessWord
  faceResults : List FaceRawDetection
  deriving Repr

/-- Messages sent from the Executor worker (types.ts `WorkerResponse`).
No variant carries a requestId. -/
inductive WorkerResponse where
  | download_progress (progress : ℚ) (stage : String)
  | download_complete
  | progress (progress : ℚ) (stage : String)
  | results (detections : List Detection)
  | complete
  | error (msg : String)
  | model_loaded (modelType : DetectionType)
  | run_text_detection
  | run_mediapipe_face_detection
  | cancelled
  deriving DecidableEq, Repr

/-- Model of `runTextDetection` in manager.ts: bail out (but still finish
the run) when text is not enabled or no image is loaded; otherwise
initialize Tesseract if needed (emitting the progress-75 update and the
model-loaded flag), add the retained word detections when non-empty, and
finish the run.  This is the only call site of
`detectionStore.finishDetection` in the manager. -/
def runTextDetection (env : ManagerEnv) (s : DetectionState) :
    DetectionState :=
  if !(s.enabledTypes.contains .text) then s.finishDetection
  else if !env.imageLoaded then s.finishDetection
  else
    let s1 := if env.tesseractReady then s
      else ((s.updateProgress 75
        "Loading text recognition model...").setModelLoaded .text true)
    let ds := textDetections env.words
    let s2 := if !ds.isEmpty then s1.addResults ds else s1
    s2.finishDetection

/-- Model of `runMediaPipeFaceDetection` in manager.ts: bail out silently
when face is not enabled or no image is loaded; otherwise add the face
detections when non-empty and flag the face model loaded if the entry
snapshot had it unloaded.  It does not finish the run. -/
def runMediaPipeFaceDetection (env : ManagerEnv) (s : DetectionState) :
    DetectionState :=
  if !(s.enabledTypes.contains .face) then s
  else if !env.imageLoaded then s
  else
    let faces := detectFaces env.faceResults
    let s1 := if !faces.isEmpty then s.addResults faces else s
    if !(s.modelsLoaded.face) then s1.setModelLoaded .face true else s1

/-- Model of the `worker.onmessage` dispatch in manager.ts `initWorker`.
The `complete` arm is empty in the source (completion is deferred to the
text-detection path); no arm inspects any requestId. -/
def handleWorkerMessage (env : ManagerEnv) (s : DetectionState) :
    WorkerResponse → DetectionState
  | .download_progress p stage => s.updateDownloadProgress p stage
  | .download_complete => s.finishDownload
  | .progress p stage => s.updateProgress p stage
  | .results ds => s.addResults ds
  | .model_loaded t => s.setModelLoaded t true
  | .complete => s
  | .run_text_detection => runTextDetection env s
  | .run_mediapipe_face_detection => runMediaPipeFaceDetection env s
  | .error msg => s.setError msg
  | .cancelled => s.clearResults

/-- Sequential processing of a stream of Executor messages. -/
def processMessages (env : ManagerEnv) (s : DetectionState)
    (msgs : List WorkerResponse) : DetectionState :=
  msgs.foldl (handleWorkerMessage env) s

inductive StartOutcome where
  | rejectedNoImage
  | rejectedBusy
  | rejectedNoTypes
  | rejectedNoConsent
  | dispatched (isFirstRun : Bool)
  deriving DecidableEq, Repr

/-- Model of the exported `startDetection` in manager.ts: the image,
busy, empty-type-list and consent guards in source order, then the
optional download phase, the store transition to detecting, worker
creation with the backend probe on first use, and the dispatch of the
detect request (whose requestId generation is not modelled). -/
def startDetection (env : ManagerEnv) (s : DetectionState) :
    DetectionState × StartOutcome :=
  if !env.imageLoaded then (s.setError "No image loaded", .rejectedNoImage)
  else if s.isDetecting || s.isDownloading then (s, .rejectedBusy)
  else if s.enabledTypes.isEmpty then
    (s.setError "No detection types enabled", .rejectedNoTypes)
  else if needsModelDownload s && !s.hasUserConsent then
    (s.setError "Please confirm model download first", .rejectedNoConsent)
  else
    let s1 := if needsModelDownload s then s.startDownload else s
    let s2 := s1.startDetection
    let s3 := if env.workerExists then s2 else s2.setBackend env.backend
    (s3, .dispatched (needsModelDownload s))

/-- Executor-side module state of worker.ts at the start of a run. -/
structure WorkerEnv where
  plateLoaded : Bool
  documentLoaded : Bool
  plateResults : List DetrResult
  docResults : List DetrResult
  deriving Repr

/-- The message sequence `runDetection` in worker.ts emits for an
uncancelled run: the initial progress or download report; the
face-detection request relayed to the interactive thread (worker-side
`detectFaces` posts the signal and contributes no results); the plate
and document stages with their per-stage progress, lazy model-load flag
and non-empty result batches; the download completion pair on a first
run; the text-detection request; and the final progress-100 and
completion messages.  The pipeline download progress callbacks are
asynchronous engine callbacks and are not modelled. -/
def workerRunDetection (env : WorkerEnv)
    (enabledTypes : List DetectionType) (isFirstRun : Bool) :
    List WorkerResponse :=
  (if isFirstRun then
      [.download_progress 0 "Preparing to download AI models..."]
    else [.progress 0 "Starting detection..."]) ++
  (if enabledTypes.contains .face then [.run_mediapipe_face_detection]
    else []) ++
  (if enabledTypes.contains .license_plate then
      (if !env.plateLoaded && isFirstRun then
          [.download_progress 35
            "Downloading license plate detection model (~25MB)..."]
        else [.progress 40 "Loading license plate detection model..."]) ++
      (if !env.plateLoaded then [.model_loaded .license_plate] else []) ++
      [.progress 50 "Detecting license plates..."] ++
      (let ds := detectLicensePlatesResults env.plateResults
        if !ds.isEmpty then [.results ds] else [])
    else []) ++
  (if enabledTypes.contains .document then
      (if !env.documentLoaded && isFirstRun then
          [.download_progress 50
            "Downloading document detection model (~10MB)..."]
        else [.progress 60 "Loading document detection model..."]) ++
      (if !env.documentLoaded then [.model_loaded .document] else []) ++
      [.progress 70 "Detecting documents..."] ++
      (let ds := detectDocumentsResults env.docResults
        if !ds.isEmpty then [.results ds] else [])
    else []) ++
  (if isFirstRun then
      [.download_progress 85 "AI models downloaded successfully!",
        .download_complete]
    else []) ++
  (if enabledTypes.contains .text then [.run_text_detection] else []) ++
  [.progress 100 "Detection complete", .complete]

/-- Executor-side handling of a cancel request (worker.ts `onmessage`,
`cancel` arm): the cancellation flag is set and `cancelled` is posted
only when the carried requestId matches the current request of the Executor. -/
structure WorkerState where
  currentRequestId : Option String
  isCancelled : Bool
  deriving DecidableEq, Repr

def workerHandleCancel (ws : WorkerState) (requestId : String) :
    WorkerState × Option WorkerResponse :=
  if ws.currentRequestId = some requestId then
    ({ ws with isCancelled := true }, some .cancelled)
  else (ws, none)

/-- An Executor-to-orchestrator message together with its ghost
provenance: the requestId the Executor was serving when it emitted the
message.  The wire format (`WorkerResponse`) carries no requestId, so
the orchestrator handler can only read the message itself. -/
structure TaggedWorkerResponse where
  originRequestId : String
  message : WorkerResponse
  deriving Repr

/-- The orchestrator handling of a provenance-tagged Executor message:
manager.ts dispatches on `event.data` alone, so the active requestId and
the origin are ignored. -/
def handleTaggedWorkerMessage (env : ManagerEnv)
    (activeRequestId : Option String) (s : DetectionState)
    (m : TaggedWorkerResponse) : DetectionState :=
  handleWorkerMessage env s m.message

/-- C7 counterexample: calling startDetection with no image on the
initial store state does not leave the state unchanged — the error and
currentStage fields are mutated by `setError`. -/
theorem c7_missing_image_mutates_state :
    (startDetection ⟨false, false, .cpu, false, [], []⟩
        initialDetectionState).1 ≠ initialDetectionState ∧
      (startDetection ⟨false, false, .cpu, false, [], []⟩
        initialDetectionState).2 = .rejectedNoImage := by
  constructor
  · intro h
    have := congrArg DetectionState.error h
    simp [startDetection, DetectionState.setError, initialDetectionState]
      at this
  · rfl

/-- C7 as amended: each of the three validation failures (missing image,
empty enabled-type list, and required download without consent) rejects
the call synchronously without dispatching to the Executor, and the only
state change is that of `setError`: the message is recorded in error,
currentStage becomes "Error" and isDetecting false; every other field is
untouched. -/
theorem c7_validation_rejects_with_error (env : ManagerEnv)
    (s : DetectionState) :
    (env.imageLoaded = false →
      startDetection env s =
        ({ s with
          isDetecting := false
          error := some "No image loaded"
          currentStage := "Error" }, .rejectedNoImage)) ∧
      (env.imageLoaded = true → s.isDetecting = false →
        s.isDownloading = false → s.enabledTypes = [] →
        startDetection env s =
          ({ s with
            isDetecting := false
            error := some "No detection types enabled"
            currentStage := "Error" }, .rejectedNoTypes)) ∧
      (env.imageLoaded = true → s.isDetecting = false →
        s.isDownloading = false → s.enabledTypes ≠ [] →
        needsModelDownload s = true → s.hasUserConsent = false →
        startDetection env s =
          ({ s with
            isDetecting := false
            error := some "Please confirm model download first"
            currentStage := "Error" }, .rejectedNoConsent)) := by
  refine ⟨?_, ?_, ?_⟩
  · intro h
    simp [startDetection, h, DetectionState.setError]
  · intro h1 h2 h3 h4
    simp [startDetection, h1, h2, h3, h4, DetectionState.setError]
  · intro h1 h2 h3 h4 h5 h6
    have h4b : s.enabledTypes.isEmpty = false := by
      simpa [List.isEmpty_iff] using h4
    simp [startDetection, h1, h2, h3, h4b, h5, h6, DetectionState.setError]

/-- Concrete instance of `c7_validation_rejects_with_error`: the
empty-type-list rejection on an otherwise idle state. -/
theorem c7_validation_rejects_with_error_witness :
    startDetection ⟨true, false, .cpu, false, [], []⟩
        { initialDetectionState with enabledTypes := [] } =
      ({ initialDetectionState with
        enabledTypes := ([] : List DetectionType)
        isDetecting := false
        error := some "No detection types enabled"
        currentStage := "Error" }, .rejectedNoTypes) :=
  (c7_validation_rejects_with_error ⟨true, false, .cpu, false, [], []⟩
    { initialDetectionState with enabledTypes := [] }).2.1 rfl rfl rfl rfl

/-- C8 counterexample: a results message whose ghost provenance is
request "a" is applied unchanged by the orchestrator even though the
active requestId is "b" — the handler has no requestId to compare, so
the stale-tagged message is not ignored and the results list grows. -/
theorem c8_stale_message_not_ignored :
    handleTaggedWorkerMessage ⟨true, true, .cpu, true, [], []⟩ (some "b")
        initialDetectionState
        ⟨"a", .results [⟨"d1", .face, ⟨1, 1, 2, 2⟩, 1 / 2, true, none⟩]⟩ ≠
      initialDetectionState ∧ "a" ≠ "b" := by
  constructor
  · intro h
    have := congrArg (fun st => st.results.length) h
    simp [handleTaggedWorkerMessage, handleWorkerMessage,
      DetectionState.addResults, initialDetectionState] at this
  · decide

/-- C8 as amended: the only requestId filtering in the protocol is on the
Executor side — a cancel request whose requestId differs from the
current request of the Executor is ignored, leaving the Executor state
unchanged and emitting nothing (in particular no cancelled message, so
the orchestrator state is also untouched). -/
theorem c8_stale_cancel_ignored (ws : WorkerState) (rid : String)
    (h : ws.currentRequestId ≠ some rid) :
    workerHandleCancel ws rid = (ws, none) := by
  simp [workerHandleCancel, h]

/-- Concrete instance of `c8_stale_cancel_ignored`. -/
theorem c8_stale_cancel_ignored_witness :
    workerHandleCancel ⟨some "a", false⟩ "b" = (⟨some "a", false⟩, none) :=
  c8_stale_cancel_ignored ⟨some "a", false⟩ "b" (by decide)

/-- C5 counterexample: a MediaPipe result with a missing bounding box is
mapped to a face Detection whose bbox is the degenerate 0 by 0 rectangle,
so its width is not positive. -/
theorem c5_face_degenerate_bbox :
    (detectFaces [⟨none, []⟩]).map
        (fun d => (d.type, d.bbox.x, d.bbox.y, d.bbox.width,
          d.bbox.height)) = [(.face, 0, 0, 0, 0)] ∧
      ¬((0 : ℚ) < 0) := by
  constructor
  · rfl
  · norm_num

/-- C5 as amended: the detectors copy raw engine geometry and scores
unclamped, so the invariant holds exactly when the raw outputs are
in range: if every raw face result has a bounding box with positive
extent inside the image and category scores in the unit interval, every
raw plate and document result has a well-ordered box inside the image
and a score in the unit interval, and every raw word has confidence at
most 100 and a well-ordered box inside the image, then every produced
Detection has confidence in the unit interval, positive bbox width and
height, and a bbox contained in the image. -/
theorem c5_detections_invariant (W Hgt : ℚ)
    (faces : List FaceRawDetection) (plates docs : List DetrResult)
    (words : List TessWord)
    (hface : ∀ fr ∈ faces,
      (∃ bb, fr.boundingBox = some bb ∧
        0 ≤ bb.originX ∧ 0 < bb.width ∧ bb.originX + bb.width ≤ W ∧
        0 ≤ bb.originY ∧ 0 < bb.height ∧ bb.originY + bb.height ≤ Hgt) ∧
      ∀ c ∈ fr.categories, 0 ≤ c.score ∧ c.score ≤ 1)
    (hplate : ∀ r ∈ plates, 0 ≤ r.score ∧ r.score ≤ 1 ∧
      0 ≤ r.box.xmin ∧ r.box.xmin < r.box.xmax ∧ r.box.xmax ≤ W ∧
      0 ≤ r.box.ymin ∧ r.box.ymin < r.box.ymax ∧ r.box.ymax ≤ Hgt)
    (hdoc : ∀ r ∈ docs, 0 ≤ r.score ∧ r.score ≤ 1 ∧
      0 ≤ r.box.xmin ∧ r.box.xmin < r.box.xmax ∧ r.box.xmax ≤ W ∧
      0 ≤ r.box.ymin ∧ r.box.ymin < r.box.ymax ∧ r.box.ymax ≤ Hgt)
    (hword : ∀ w ∈ words, w.confidence ≤ 100 ∧
      0 ≤ w.x0 ∧ w.x0 < w.x1 ∧ w.x1 ≤ W ∧
      0 ≤ w.y0 ∧ w.y0 < w.y1 ∧ w.y1 ≤ Hgt) :
    ∀ d ∈ detectFaces faces ++ detectLicensePlatesResults plates ++
        detectDocumentsResults docs ++ textDetections words,
      (0 ≤ d.confidence ∧ d.confidence ≤ 1) ∧
      0 < d.bbox.width ∧ 0 < d.bbox.height ∧
      0 ≤ d.bbox.x ∧ 0 ≤ d.bbox.y ∧
      d.bbox.x + d.bbox.width ≤ W ∧ d.bbox.y + d.bbox.height ≤ Hgt := by
  intro d hd
  rcases List.mem_append.mp hd with hd | hw
  rcases List.mem_append.mp hd with hd | hdc
  rcases List.mem_append.mp hd with hf | hp
  · obtain ⟨fr, hfr, rfl⟩ := List.mem_map.mp hf
    obtain ⟨⟨bb, hbb, hx0, hxw, hxW, hy0, hyh, hyH⟩, hcat⟩ := hface fr hfr
    cases hcats : fr.categories with
    | nil =>
      refine ⟨⟨?_, ?_⟩, ?_, ?_, ?_, ?_, ?_, ?_⟩ <;>
        simp [faceRawToDetection, hbb, hcats] <;> linarith
    | cons c rest =>
      have hcs := hcat c (by rw [hcats]; exact List.mem_cons_self c rest)
      refine ⟨⟨?_, ?_⟩, ?_, ?_, ?_, ?_, ?_, ?_⟩ <;>
        simp [faceRawToDetection, hbb, hcats] <;>
          first
            | exact hcs.1
            | exact hcs.2
            | linarith
  · obtain ⟨r, hrf, rfl⟩ := List.mem_map.mp hp
    have hr := List.mem_of_mem_filter hrf
    obtain ⟨hs0, hs1, hx0, hxw, hxW, hy0, hyh, hyH⟩ := hplate r hr
    refine ⟨⟨hs0, hs1⟩, ?_, ?_, ?_, ?_, ?_, ?_⟩ <;> dsimp only <;> linarith
  · obtain ⟨r, hrf, rfl⟩ := List.mem_map.mp hdc
    have hr := List.mem_of_mem_filter hrf
    obtain ⟨hs0, hs1, hx0, hxw, hxW, hy0, hyh, hyH⟩ := hdoc r hr
    refine ⟨⟨hs0, hs1⟩, ?_, ?_, ?_, ?_, ?_, ?_⟩ <;> dsimp only <;> linarith
  · obtain ⟨w, hwf, rfl⟩ := List.mem_map.mp hw
    have hwm := List.mem_of_mem_filter hwf
    have hkeep := (List.mem_filter.mp hwf).2
    have hconf60 : (60 : ℚ) < w.confidence := by
      have := Bool.and_elim_left hkeep
      exact of_decide_eq_true this
    obtain ⟨hc100, hx0, hxw, hxW, hy0, hyh, hyH⟩ := hword w hwm
    refine ⟨⟨?_, ?_⟩, ?_, ?_, ?_, ?_, ?_, ?_⟩ <;> dsimp only <;> linarith

/-- Concrete instance of `c5_detections_invariant`: a single in-range
raw face result on a 100 by 100 image. -/
theorem c5_detections_invariant_witness :
    (0 ≤ (faceRawToDetection ⟨some ⟨1, 2, 3, 4⟩, [⟨1 / 2⟩]⟩).confidence ∧
        (faceRawToDetection ⟨some ⟨1, 2, 3, 4⟩, [⟨1 / 2⟩]⟩).confidence ≤ 1) ∧
      0 < (faceRawToDetection ⟨some ⟨1, 2, 3, 4⟩, [⟨1 / 2⟩]⟩).bbox.width ∧
      0 < (faceRawToDetection ⟨some ⟨1, 2, 3, 4⟩, [⟨1 / 2⟩]⟩).bbox.height ∧
      0 ≤ (faceRawToDetection ⟨some ⟨1, 2, 3, 4⟩, [⟨1 / 2⟩]⟩).bbox.x ∧
      0 ≤ (faceRawToDetection ⟨some ⟨1, 2, 3, 4⟩, [⟨1 / 2⟩]⟩).bbox.y ∧
      (faceRawToDetection ⟨some ⟨1, 2, 3, 4⟩, [⟨1 / 2⟩]⟩).bbox.x +
        (faceRawToDetection ⟨some ⟨1, 2, 3, 4⟩, [⟨1 / 2⟩]⟩).bbox.width ≤ 100 ∧
      (faceRawToDetection ⟨some ⟨1, 2, 3, 4⟩, [⟨1 / 2⟩]⟩).bbox.y +
        (faceRawToDetection ⟨some ⟨1, 2, 3, 4⟩, [⟨1 / 2⟩]⟩).bbox.height ≤ 100 :=
  c5_detections_invariant 100 100 [⟨some ⟨1, 2, 3, 4⟩, [⟨1 / 2⟩]⟩] [] [] []
    (by
      intro fr hfr
      rw [List.mem_singleton.mp hfr]
      exact ⟨⟨⟨1, 2, 3, 4⟩, rfl, by norm_num, by norm_num, by norm_num,
        by norm_num, by norm_num, by norm_num⟩,
        by intro c hc; rw [List.mem_singleton.mp hc]; norm_num⟩)
    (by simp) (by simp) (by simp)
    (faceRawToDetection ⟨some ⟨1, 2, 3, 4⟩, [⟨1 / 2⟩]⟩)
    (by simp [detectFaces])

/-- C4: the code bug at the failing input.  For a run whose enabled types
do not include text (here license_plate only, models already loaded), the
Executor emits its full message sequence ending in the completion signal,
but the `complete` arm of the manager handler is empty and
`finishDetection` is only ever called from the text-detection path — so
the run is left with isDetecting true forever (its stage stays at the
last progress string of the Executor, never "Complete").  A run with text
enabled does terminate, through `runTextDetection`. -/
theorem c4_plate_only_run_stuck_detecting :
    ((processMessages ⟨true, true, .cpu, true, [], []⟩
          (startDetection ⟨true, true, .cpu, true, [], []⟩
            { initialDetectionState with
              enabledTypes := [.license_plate]
              modelsLoaded := ⟨false, false, true, true⟩ }).1
          (workerRunDetection ⟨true, true, [], []⟩ [.license_plate]
            false)).isDetecting = true ∧
        (processMessages ⟨true, true, .cpu, true, [], []⟩
          (startDetection ⟨true, true, .cpu, true, [], []⟩
            { initialDetectionState with
              enabledTypes := [.license_plate]
              modelsLoaded := ⟨false, false, true, true⟩ }).1
          (workerRunDetection ⟨true, true, [], []⟩ [.license_plate]
            false)).currentStage ≠ "Complete") ∧
      (processMessages ⟨true, true, .cpu, true, [], []⟩
        (startDetection ⟨true, true, .cpu, true, [], []⟩
          { initialDetectionState with
            enabledTypes := [.text]
            modelsLoaded := ⟨false, true, false, false⟩ }).1
        (workerRunDetection ⟨true, true, [], []⟩ [.text]
          false)).isDetecting = false := by
  exact ⟨⟨rfl, by decide⟩, rfl⟩
